import Mathlib

/-!
Verification of the DeltaStack trading-agent core against its specification.

The repository ships the frontend (Next.js pages, an API proxy route) and the
operational documentation; the backend decision-and-risk engine (RiskGovernor,
DecisionEngine, PaperBroker, BacktestRunner, ReplayRunner) is described by the
specification but its Python sources are not part of this tree, so those
components are modelled here directly from the specification text.  The API
proxy handler (`frontend/pages/api/proxy/[...path].js`) is embedded from its
JavaScript source.
-/

namespace DeltaStack

/-! ## RiskGovernor (modelled from the spec, §4.1) -/

/-- Modelled from the spec: per-agent daily risk limits (the backend
`RiskGovernor` configuration is not in the tree). -/
structure RiskLimits where
  max_trades_per_day : Nat
  max_notional_per_day : Nat
  max_loss_per_day : Nat
  deriving DecidableEq, Repr

/-- Modelled from the spec: an exchange-local timestamp, split into the
trading-day key (calendar date in the exchange's reference timezone) and the
minute of day. -/
structure Timestamp where
  dayKey : Nat
  minute : Nat
  deriving DecidableEq, Repr

/-- Modelled from the spec: the force-exit cutoff, a fixed clock time in
exchange-local time (15:45). -/
def forceExitCutoffMinute : Nat := 15 * 60 + 45

/-- Modelled from the spec: a proposed trade as seen by the governor; only its
notional (absolute dollar value) is consulted by `check`. -/
structure Trade where
  notional : Nat
  deriving DecidableEq, Repr

/-- Modelled from the spec: deny reasons of `RiskGovernor.check`. -/
inductive DenyReason where
  | FORCE_EXIT_ALREADY_TRIGGERED
  | FORCE_EXIT
  | MAX_TRADES_EXCEEDED
  | MAX_NOTIONAL_EXCEEDED
  | MAX_LOSS_EXCEEDED
  deriving DecidableEq, Repr

/-- Modelled from the spec: result of `RiskGovernor.check`. -/
inductive CheckResult where
  | Allow
  | Deny (reason : DenyReason)
  deriving DecidableEq, Repr

/-- Modelled from the spec: per-agent, per-trading-day `RiskState` counters. -/
structure RiskState where
  dayKey : Nat
  trades_today : Nat
  notional_today : Nat
  loss_today : Nat
  day_closed : Bool
  deriving DecidableEq, Repr

/-- Modelled from the spec: the freshly reset state for a new trading day. -/
def resetFor (d : Nat) : RiskState :=
  { dayKey := d, trades_today := 0, notional_today := 0, loss_today := 0, day_closed := false }

/-- Modelled from the spec: on the first check of a new day key, counters are
reset to zero before evaluating (atomic reset-then-check). -/
def rollIfNewDay (st : RiskState) (d : Nat) : RiskState :=
  if st.dayKey = d then st else resetFor d

/-- Modelled from the spec: the deny evaluation of §4.1, applied after the day
roll, in the fixed first-match-wins order (a)–(e). -/
def checkAfterRoll (L : RiskLimits) (st : RiskState) (t : Trade) (now : Timestamp) :
    CheckResult × RiskState :=
  if st.day_closed then (.Deny .FORCE_EXIT_ALREADY_TRIGGERED, st)
  else if forceExitCutoffMinute ≤ now.minute then
    (.Deny .FORCE_EXIT, { st with day_closed := true })
  else if st.trades_today + 1 > L.max_trades_per_day then (.Deny .MAX_TRADES_EXCEEDED, st)
  else if st.notional_today + t.notional > L.max_notional_per_day then
    (.Deny .MAX_NOTIONAL_EXCEEDED, st)
  else if st.loss_today ≥ L.max_loss_per_day then (.Deny .MAX_LOSS_EXCEEDED, st)
  else (.Allow, st)

/-- Modelled from the spec: `RiskGovernor.check(agent_risk_state, proposed_trade, now)`. -/
def check (L : RiskLimits) (st : RiskState) (t : Trade) (now : Timestamp) :
    CheckResult × RiskState :=
  checkAfterRoll L (rollIfNewDay st now.dayKey) t now

/-- Modelled from the spec: the counter deltas of a confirmed fill, applied by
the caller after `Allow` (increment trades, add notional, add realized loss if
negative). -/
structure FillDelta where
  notional : Nat
  realizedPnl : Int
  deriving DecidableEq, Repr

/-- Modelled from the spec: the caller's counter update after a confirmed fill. -/
def applyFillCounters (st : RiskState) (f : FillDelta) : RiskState :=
  { st with
    trades_today := st.trades_today + 1
    notional_today := st.notional_today + f.notional
    loss_today := st.loss_today + (if f.realizedPnl < 0 then (-f.realizedPnl).toNat else 0) }

/-- Modelled from the spec: the operations that touch a `RiskState` during a
day — a governor check, or the caller's counter update after a confirmed fill. -/
inductive GovOp where
  | opCheck (t : Trade) (now : Timestamp)
  | opFill (f : FillDelta)
  deriving DecidableEq, Repr

/-- One step of governor activity, returning the new state and the check
result when the operation was a check. -/
def govStep (L : RiskLimits) (st : RiskState) : GovOp → RiskState × Option CheckResult
  | .opCheck t now => ((check L st t now).2, some (check L st t now).1)
  | .opFill f => (applyFillCounters st f, none)

/-- Runs a sequence of governor operations, collecting the check results. -/
def runOps (L : RiskLimits) (st : RiskState) : List GovOp → RiskState × List CheckResult
  | [] => (st, [])
  | op :: rest =>
    let s := govStep L st op
    let r := runOps L s.1 rest
    (r.1, (match s.2 with | some c => [c] | none => []) ++ r.2)

/-- Whether an operation stays within the trading day `d` (fills carry no
timestamp of their own). -/
def opSameDay (d : Nat) : GovOp → Bool
  | .opCheck _ now => now.dayKey = d
  | .opFill _ => true

/-- Whether a check result is `Deny FORCE_EXIT_ALREADY_TRIGGERED`. -/
def isAlreadyTriggered : CheckResult → Bool
  | .Deny .FORCE_EXIT_ALREADY_TRIGGERED => true
  | _ => false

/-- Pointwise order on the three daily counters. -/
def counterLE (a b : RiskState) : Bool :=
  a.trades_today ≤ b.trades_today && a.notional_today ≤ b.notional_today &&
    a.loss_today ≤ b.loss_today

/-- The successive states produced by a sequence of governor operations,
including the initial state. -/
def stateTrace (L : RiskLimits) (st : RiskState) : List GovOp → List RiskState
  | [] => [st]
  | op :: rest => st :: stateTrace L (govStep L st op).1 rest

/-- Every adjacent pair in the list is counter-nondecreasing. -/
def countersMono : List RiskState → Bool
  | [] => true
  | [_] => true
  | a :: b :: rest => counterLE a b && countersMono (b :: rest)

/-- C1. Deny reasons are evaluated in the fixed order of §4.1 with the first
match winning: `day_closed` wins over the cutoff, which wins over the trade
count, notional and loss limits, and any unmatched case yields `Allow`; the
only state change on a check is setting `day_closed` on the cutoff branch. -/
theorem risk_check_order (L : RiskLimits) (st : RiskState) (t : Trade) (now : Timestamp)
    (hday : now.dayKey = st.dayKey) :
    (st.day_closed = true →
      check L st t now = (.Deny .FORCE_EXIT_ALREADY_TRIGGERED, st)) ∧
    (st.day_closed = false → forceExitCutoffMinute ≤ now.minute →
      check L st t now = (.Deny .FORCE_EXIT, { st with day_closed := true })) ∧
    (st.day_closed = false → now.minute < forceExitCutoffMinute →
      st.trades_today + 1 > L.max_trades_per_day →
      check L st t now = (.Deny .MAX_TRADES_EXCEEDED, st)) ∧
    (st.day_closed = false → now.minute < forceExitCutoffMinute →
      ¬ st.trades_today + 1 > L.max_trades_per_day →
      st.notional_today + t.notional > L.max_notional_per_day →
      check L st t now = (.Deny .MAX_NOTIONAL_EXCEEDED, st)) ∧
    (st.day_closed = false → now.minute < forceExitCutoffMinute →
      ¬ st.trades_today + 1 > L.max_trades_per_day →
      ¬ st.notional_today + t.notional > L.max_notional_per_day →
      st.loss_today ≥ L.max_loss_per_day →
      check L st t now = (.Deny .MAX_LOSS_EXCEEDED, st)) ∧
    (st.day_closed = false → now.minute < forceExitCutoffMinute →
      ¬ st.trades_today + 1 > L.max_trades_per_day →
      ¬ st.notional_today + t.notional > L.max_notional_per_day →
      ¬ st.loss_today ≥ L.max_loss_per_day →
      check L st t now = (.Allow, st)) := by
  have hroll : rollIfNewDay st now.dayKey = st := by
    simp [rollIfNewDay, hday]
  refine ⟨?_, ?_, ?_, ?_, ?_, ?_⟩ <;>
    · intros
      simp only [check, hroll, checkAfterRoll]
      split_ifs <;> first | rfl | omega | simp_all

/-- Witness for C1: a concrete same-day check with all limits satisfied is
allowed and leaves the state untouched. -/
theorem risk_check_order_witness :
    check ⟨5, 20000, 1500⟩ ⟨101, 2, 4000, 0, false⟩ ⟨1000⟩ ⟨101, 620⟩ =
      (.Allow, ⟨101, 2, 4000, 0, false⟩) := by
  have h := risk_check_order ⟨5, 20000, 1500⟩ ⟨101, 2, 4000, 0, false⟩ ⟨1000⟩ ⟨101, 620⟩ rfl
  exact h.2.2.2.2.2 rfl (by decide) (by decide) (by decide) (by decide)

lemma check_sameDay_closed (L : RiskLimits) (st : RiskState) (t : Trade) (now : Timestamp)
    (hday : now.dayKey = st.dayKey) (hc : st.day_closed = true) :
    check L st t now = (.Deny .FORCE_EXIT_ALREADY_TRIGGERED, st) := by
  simp [check, rollIfNewDay, hday, checkAfterRoll, hc]

lemma check_force_exit_closes (L : RiskLimits) (st st1 : RiskState) (t : Trade)
    (now : Timestamp) (h : check L st t now = (.Deny .FORCE_EXIT, st1)) :
    st1.day_closed = true ∧ st1.dayKey = now.dayKey := by
  unfold check checkAfterRoll at h
  have hkey : (rollIfNewDay st now.dayKey).dayKey = now.dayKey := by
    unfold rollIfNewDay resetFor
    split_ifs with hd
    · exact hd
    · rfl
  split_ifs at h
  all_goals simp only [Prod.mk.injEq] at h
  all_goals first
    | (rw [← h.2]; exact ⟨rfl, hkey⟩)
    | exact absurd h.1 (by simp)

lemma govStep_closed_sameDay (L : RiskLimits) (st : RiskState) (op : GovOp)
    (hday : opSameDay st.dayKey op = true) (hc : st.day_closed = true) :
    (govStep L st op).1 = st ∨ (govStep L st op).1.day_closed = true ∧
      (govStep L st op).1.dayKey = st.dayKey := by
  cases op with
  | opCheck t now =>
    left
    simp only [opSameDay, decide_eq_true_eq] at hday
    simp [govStep, check_sameDay_closed L st t now hday hc]
  | opFill f =>
    right
    simp [govStep, applyFillCounters, hc]

lemma runOps_closed (L : RiskLimits) : ∀ (ops : List GovOp) (st : RiskState),
    st.day_closed = true → ops.all (opSameDay st.dayKey) = true →
    ((runOps L st ops).2.all isAlreadyTriggered = true ∧
      (runOps L st ops).1.day_closed = true ∧ (runOps L st ops).1.dayKey = st.dayKey) := by
  intro ops
  induction ops with
  | nil => intro st hc _; simpa [runOps] using hc
  | cons op rest ih =>
    intro st hc hall
    simp only [List.all_cons, Bool.and_eq_true] at hall
    have hstep := govStep_closed_sameDay L st op hall.1 hc
    have hclosed : (govStep L st op).1.day_closed = true ∧
        (govStep L st op).1.dayKey = st.dayKey := by
      rcases hstep with h | h
      · rw [h]; exact ⟨hc, rfl⟩
      · exact h
    have hrest : rest.all (opSameDay (govStep L st op).1.dayKey) = true := by
      rw [hclosed.2]; exact hall.2
    have hih := ih (govStep L st op).1 hclosed.1 hrest
    have hres : ∀ c, (govStep L st op).2 = some c → isAlreadyTriggered c = true := by
      intro c hcres
      cases op with
      | opCheck t now =>
        simp only [opSameDay, decide_eq_true_eq] at hall
        simp [govStep, check_sameDay_closed L st t now hall.1 hc] at hcres
        rw [← hcres]; rfl
      | opFill f => simp [govStep] at hcres
    constructor
    · simp only [runOps, List.all_append, Bool.and_eq_true]
      refine ⟨?_, hih.1⟩
      cases hop : (govStep L st op).2 with
      | none => simp
      | some c => simp [hres c hop]
    · simp only [runOps]
      exact ⟨hih.2.1, by rw [hih.2.2, hclosed.2]⟩

/-- C2. Once `check` has returned `FORCE_EXIT` for an agent/day, every check in
any subsequent same-day sequence of governor operations (further checks and
caller fill updates) returns `FORCE_EXIT_ALREADY_TRIGGERED`: the day-closed
state is terminal for the day. -/
theorem risk_force_exit_terminal (L : RiskLimits) (st st1 : RiskState) (t : Trade)
    (now : Timestamp) (ops : List GovOp)
    (h : check L st t now = (.Deny .FORCE_EXIT, st1))
    (hops : ops.all (opSameDay st1.dayKey) = true) :
    ((runOps L st1 ops).2).all isAlreadyTriggered = true :=
  (runOps_closed L ops st1 (check_force_exit_closes L st st1 t now h).1 hops).1

/-- Witness for C2: after a concrete `FORCE_EXIT` at 15:50, a later check, a
fill update, and another check all report `FORCE_EXIT_ALREADY_TRIGGERED`. -/
theorem risk_force_exit_terminal_witness :
    ((runOps ⟨5, 20000, 1500⟩ ⟨100, 3, 5000, 0, true⟩
        [.opCheck ⟨500⟩ ⟨100, 955⟩, .opFill ⟨500, -100⟩, .opCheck ⟨100⟩ ⟨100, 960⟩]).2).all
      isAlreadyTriggered = true :=
  risk_force_exit_terminal ⟨5, 20000, 1500⟩ ⟨100, 3, 5000, 0, false⟩
    ⟨100, 3, 5000, 0, true⟩ ⟨500⟩ ⟨100, 950⟩
    [.opCheck ⟨500⟩ ⟨100, 955⟩, .opFill ⟨500, -100⟩, .opCheck ⟨100⟩ ⟨100, 960⟩]
    (by decide) (by decide)

lemma checkAfterRoll_snd (L : RiskLimits) (st : RiskState) (t : Trade) (now : Timestamp) :
    (checkAfterRoll L st t now).2 = st ∨
      (checkAfterRoll L st t now).2 = { st with day_closed := true } := by
  unfold checkAfterRoll
  split_ifs <;> simp

lemma counterLE_refl (st : RiskState) : counterLE st st = true := by
  simp [counterLE]

lemma govStep_counters_le (L : RiskLimits) (st : RiskState) (op : GovOp)
    (hday : opSameDay st.dayKey op = true) :
    counterLE st (govStep L st op).1 = true ∧ (govStep L st op).1.dayKey = st.dayKey := by
  cases op with
  | opCheck t now =>
    simp only [opSameDay, decide_eq_true_eq] at hday
    have hroll : rollIfNewDay st now.dayKey = st := by simp [rollIfNewDay, hday]
    have h2 := checkAfterRoll_snd L st t now
    simp only [govStep, check, hroll]
    rcases h2 with h | h <;> rw [h]
    · exact ⟨counterLE_refl st, rfl⟩
    · exact ⟨by simp [counterLE], rfl⟩
  | opFill f =>
    constructor
    · simp [govStep, applyFillCounters, counterLE]
    · rfl

lemma countersMono_cons (a : RiskState) (L : RiskLimits) (st : RiskState) (ops : List GovOp) :
    countersMono (a :: stateTrace L st ops) =
      (counterLE a st && countersMono (stateTrace L st ops)) := by
  cases ops <;> simp [stateTrace, countersMono]

lemma stateTrace_mono (L : RiskLimits) : ∀ (ops : List GovOp) (st : RiskState),
    ops.all (opSameDay st.dayKey) = true → countersMono (stateTrace L st ops) = true := by
  intro ops
  induction ops with
  | nil => intro st _; rfl
  | cons op rest ih =>
    intro st hall
    simp only [List.all_cons, Bool.and_eq_true] at hall
    have hstep := govStep_counters_le L st op hall.1
    have hrest : rest.all (opSameDay (govStep L st op).1.dayKey) = true := by
      rw [hstep.2]; exact hall.2
    simp only [stateTrace, countersMono_cons, Bool.and_eq_true]
    exact ⟨hstep.1, ih (govStep L st op).1 hrest⟩

/-- C3. Within a trading day the counters `trades_today`, `notional_today` and
`loss_today` never decrease across any sequence of governor operations, and at
the first evaluation of a new trading day the state is reset atomically: the
check behaves exactly as on the freshly reset state, whose three counters are
all zero. -/
theorem risk_counters_monotone_and_reset (L : RiskLimits) (st : RiskState)
    (ops : List GovOp) (t : Trade) (now : Timestamp)
    (hops : ops.all (opSameDay st.dayKey) = true)
    (hnew : now.dayKey ≠ st.dayKey) :
    countersMono (stateTrace L st ops) = true ∧
    check L st t now = check L (resetFor now.dayKey) t now ∧
    (rollIfNewDay st now.dayKey).trades_today = 0 ∧
    (rollIfNewDay st now.dayKey).notional_today = 0 ∧
    (rollIfNewDay st now.dayKey).loss_today = 0 := by
  have h' : ¬ st.dayKey = now.dayKey := fun h => hnew h.symm
  refine ⟨stateTrace_mono L ops st hops, ?_, ?_, ?_, ?_⟩ <;>
    simp [check, rollIfNewDay, resetFor, h']

/-- Witness for C3: a concrete same-day run (check, fill, check, fill) has
non-decreasing counters, and a next-day check coincides with the check on the
freshly reset state. -/
theorem risk_counters_monotone_and_reset_witness :
    countersMono (stateTrace ⟨5, 20000, 1500⟩ ⟨100, 0, 0, 0, false⟩
      [.opCheck ⟨1000⟩ ⟨100, 600⟩, .opFill ⟨1000, 0⟩,
       .opCheck ⟨2000⟩ ⟨100, 700⟩, .opFill ⟨2000, -250⟩]) = true ∧
    check ⟨5, 20000, 1500⟩ ⟨100, 0, 0, 0, false⟩ ⟨1000⟩ ⟨101, 600⟩ =
      check ⟨5, 20000, 1500⟩ (resetFor 101) ⟨1000⟩ ⟨101, 600⟩ := by
  have h := risk_counters_monotone_and_reset ⟨5, 20000, 1500⟩ ⟨100, 0, 0, 0, false⟩
    [.opCheck ⟨1000⟩ ⟨100, 600⟩, .opFill ⟨1000, 0⟩,
     .opCheck ⟨2000⟩ ⟨100, 700⟩, .opFill ⟨2000, -250⟩] ⟨1000⟩ ⟨101, 600⟩
    (by decide) (by decide)
  exact ⟨h.1, h.2.1⟩

/-! ## PaperBroker (modelled from the spec, §4.4 and §6) -/

/-- Modelled from the spec: trade side. -/
inductive Side where
  | BUY
  | SELL
  deriving DecidableEq, Repr

/-- Modelled from the spec: a `Decision` as submitted to the broker, with its
identity (`id`), instrument, side, quantity and the bar's reference price. -/
structure Decision where
  id : Nat
  ticker : String
  side : Side
  qty : Nat
  refPrice : Rat
  deriving DecidableEq, Repr

/-- Modelled from the spec: a per-(agent, ticker) position — signed quantity
and average cost basis. -/
structure Position where
  qty : Int
  avgCost : Rat
  deriving DecidableEq, Repr

/-- Modelled from the spec: the per-agent account — cash balance and realized
PnL. -/
structure Account where
  cash : Rat
  realizedPnl : Rat
  deriving DecidableEq, Repr

/-- Modelled from the spec: a simulated fill record. -/
structure Fill where
  decisionId : Nat
  ticker : String
  side : Side
  qty : Nat
  price : Rat
  commission : Rat
  deriving DecidableEq, Repr

/-- Modelled from the spec: broker cost model — slippage in basis points and a
fixed commission per trade. -/
structure BrokerCfg where
  slippage_bps : Rat
  commission_per_trade : Rat
  deriving DecidableEq, Repr

/-- Modelled from the spec: rejection reasons of `PaperBroker.submit`; the kill
switch uses the fixed sentinel `TRADING_DISABLED`. -/
inductive RejectReason where
  | TRADING_DISABLED
  deriving DecidableEq, Repr

/-- Modelled from the spec: result of `PaperBroker.submit` — a fill, a
rejection, or a duplicate submission of an already-applied decision identity
(the spec requires no double fill but fixes no result value for it). -/
inductive SubmitResult where
  | Filled (f : Fill)
  | Rejected (r : RejectReason)
  | Duplicate
  deriving DecidableEq, Repr

/-- Modelled from the spec: the broker's mutable state — the global
`trading_enabled` kill switch, per-ticker positions, the account, the applied
decision ids of the current session, and the fill log. -/
structure BrokerState where
  trading_enabled : Bool
  positions : List (String × Position)
  account : Account
  applied : List Nat
  fills : List Fill
  deriving DecidableEq, Repr

/-- Modelled from the spec: fill price is the reference price degraded by the
configured slippage in basis points. -/
def fillPrice (cfg : BrokerCfg) (side : Side) (ref : Rat) : Rat :=
  match side with
  | .BUY => ref * (1 + cfg.slippage_bps / 10000)
  | .SELL => ref * (1 - cfg.slippage_bps / 10000)

/-- The position stored for a ticker (flat when absent). -/
def lookupPos (ps : List (String × Position)) (tk : String) : Position :=
  (ps.lookup tk).getD { qty := 0, avgCost := 0 }

/-- Replaces the position stored for a ticker. -/
def setPos (ps : List (String × Position)) (tk : String) (p : Position) :
    List (String × Position) :=
  (tk, p) :: ps.filter (fun kv => kv.1 ≠ tk)

/-- Modelled from the spec: position update under a fill — weighted-average
cost basis on same-direction adds, realized PnL on reductions/closes using the
average cost, and a basis restart at the fill price when the position flips. -/
def applyToPosition (p : Position) (delta : Int) (price : Rat) : Position × Rat :=
  if p.qty = 0 ∨ (0 < p.qty ∧ 0 < delta) ∨ (p.qty < 0 ∧ delta < 0) then
    if p.qty + delta = 0 then ({ qty := 0, avgCost := 0 }, 0)
    else
      ({ qty := p.qty + delta
         avgCost := ((p.qty : Rat) * p.avgCost + (delta : Rat) * price) / ((p.qty + delta : Int) : Rat) },
       0)
  else
    let closeQty : Int := min delta.natAbs p.qty.natAbs
    let realized : Rat := (price - p.avgCost) * (closeQty : Rat) * (if 0 < p.qty then 1 else -1)
    let newQty : Int := p.qty + delta
    if newQty = 0 then ({ qty := 0, avgCost := 0 }, realized)
    else if (0 < p.qty) = (0 < newQty) then ({ qty := newQty, avgCost := p.avgCost }, realized)
    else ({ qty := newQty, avgCost := price }, realized)

/-- Modelled from the spec: the fill record produced for an accepted decision. -/
def mkFill (cfg : BrokerCfg) (d : Decision) : Fill :=
  { decisionId := d.id, ticker := d.ticker, side := d.side, qty := d.qty,
    price := fillPrice cfg d.side d.refPrice, commission := cfg.commission_per_trade }

/-- Modelled from the spec: `PaperBroker.submit(agent, decision)`.  The global
kill switch is checked first and rejects with the `TRADING_DISABLED` sentinel;
an already-applied decision identity never fills again; otherwise the fill is
priced with slippage, the commission is charged, and Position/Account, the
applied-id set and the fill log are updated atomically. -/
def submit (cfg : BrokerCfg) (bs : BrokerState) (d : Decision) :
    SubmitResult × BrokerState :=
  if bs.trading_enabled = false then (.Rejected .TRADING_DISABLED, bs)
  else if bs.applied.contains d.id then (.Duplicate, bs)
  else
    let price := fillPrice cfg d.side d.refPrice
    let delta : Int := match d.side with | .BUY => (d.qty : Int) | .SELL => -(d.qty : Int)
    let pr := applyToPosition (lookupPos bs.positions d.ticker) delta price
    (.Filled (mkFill cfg d),
      { bs with
        positions := setPos bs.positions d.ticker pr.1
        account :=
          { cash := bs.account.cash - (delta : Rat) * price - cfg.commission_per_trade
            realizedPnl := bs.account.realizedPnl + pr.2 }
        applied := d.id :: bs.applied
        fills := bs.fills ++ [mkFill cfg d] })

/-- C4. When the global kill switch `trading_enabled` is false, `submit`
returns `Rejected(TRADING_DISABLED)` for every decision — the broker state,
hence every Position and the Account, is returned unchanged. -/
theorem submit_kill_switch (cfg : BrokerCfg) (bs : BrokerState) (d : Decision)
    (h : bs.trading_enabled = false) :
    submit cfg bs d = (.Rejected .TRADING_DISABLED, bs) := by
  simp [submit, h]

/-- Witness for C4: with trading disabled, a concrete valid BUY decision is
rejected with `TRADING_DISABLED` and the state is untouched. -/
theorem submit_kill_switch_witness :
    submit ⟨0, 1⟩ ⟨false, [], ⟨100000, 0⟩, [], []⟩ ⟨7, "AAPL", .BUY, 10, 100⟩ =
      (.Rejected .TRADING_DISABLED, ⟨false, [], ⟨100000, 0⟩, [], []⟩) :=
  submit_kill_switch ⟨0, 1⟩ ⟨false, [], ⟨100000, 0⟩, [], []⟩ ⟨7, "AAPL", .BUY, 10, 100⟩ rfl

/-- C5. `submit` is idempotent per Decision identity: an accepted decision
(trading enabled, identity not yet applied) fills and appends exactly one fill
record, and resubmitting the same decision to the resulting state changes
nothing — no second fill, no further Position/Account mutation. -/
theorem submit_idempotent (cfg : BrokerCfg) (bs : BrokerState) (d : Decision)
    (hen : bs.trading_enabled = true)
    (hnew : bs.applied.contains d.id = false) :
    (submit cfg bs d).1 = .Filled (mkFill cfg d) ∧
    (submit cfg bs d).2.fills = bs.fills ++ [mkFill cfg d] ∧
    submit cfg (submit cfg bs d).2 d = (.Duplicate, (submit cfg bs d).2) := by
  have h1 : ¬ bs.trading_enabled = false := by simp [hen]
  have h3 : d.id ∉ bs.applied := by simpa using hnew
  refine ⟨?_, ?_, ?_⟩ <;>
    simp [submit, h1, h3, hen]

/-- Witness for C5: a concrete accepted BUY fills exactly once; submitting it
again to the post-fill state returns Duplicate and leaves the state exactly as
after the first submission. -/
theorem submit_idempotent_witness :
    (submit ⟨0, 0⟩ ⟨true, [], ⟨1000, 0⟩, [], []⟩ ⟨7, "AAPL", .BUY, 2, 100⟩).1 =
      .Filled (mkFill ⟨0, 0⟩ ⟨7, "AAPL", .BUY, 2, 100⟩) ∧
    (submit ⟨0, 0⟩ ⟨true, [], ⟨1000, 0⟩, [], []⟩ ⟨7, "AAPL", .BUY, 2, 100⟩).2.fills =
      [] ++ [mkFill ⟨0, 0⟩ ⟨7, "AAPL", .BUY, 2, 100⟩] ∧
    submit ⟨0, 0⟩ (submit ⟨0, 0⟩ ⟨true, [], ⟨1000, 0⟩, [], []⟩ ⟨7, "AAPL", .BUY, 2, 100⟩).2
        ⟨7, "AAPL", .BUY, 2, 100⟩ =
      (.Duplicate, (submit ⟨0, 0⟩ ⟨true, [], ⟨1000, 0⟩, [], []⟩ ⟨7, "AAPL", .BUY, 2, 100⟩).2) :=
  submit_idempotent ⟨0, 0⟩ ⟨true, [], ⟨1000, 0⟩, [], []⟩ ⟨7, "AAPL", .BUY, 2, 100⟩ rfl rfl

/-! ## DecisionEngine (modelled from the spec, §4.3) and the exchange clock -/

/-- Modelled from the spec: a structured 0DTE credit-spread payload. -/
structure Spread where
  shortStrike : Rat
  longStrike : Rat
  credit : Rat
  deriving DecidableEq, Repr

/-- Modelled from the spec: `execution_mode` of a strategy binding. -/
inductive ExecutionMode where
  | DISABLED
  | PAPER_LIVE
  | APPROVED
  deriving DecidableEq, Repr

/-- Modelled from the spec: the engine-relevant configuration of an agent and
its strategy binding. -/
structure EngineCfg where
  execution_mode : ExecutionMode
  agent_enabled : Bool
  deriving DecidableEq, Repr

/-- Modelled from the spec: the outcome of `StrategyEvaluator.evaluate` as the
DecisionEngine consumes it — a trade-proposing output (BUY signal or spread
proposal), a HOLD or SELL signal, a SKIP with reason, or an evaluator error. -/
inductive EvalOut where
  | propose (t : Trade) (payload : Option Spread)
  | hold
  | sell
  | skipOut (reason : String)
  | errorOut (msg : String)
  deriving DecidableEq, Repr

/-- Modelled from the spec: the value of a `Decision`. -/
inductive DecisionVal where
  | BUY (payload : Option Spread)
  | SKIP (reason : String)
  | FORCE_EXIT
  | ERROR (msg : String)
  deriving DecidableEq, Repr

/-- Human-readable label of a deny reason, used as a SKIP reason. -/
def denyReasonLabel : DenyReason → String
  | .FORCE_EXIT_ALREADY_TRIGGERED => "FORCE_EXIT_ALREADY_TRIGGERED"
  | .FORCE_EXIT => "FORCE_EXIT"
  | .MAX_TRADES_EXCEEDED => "MAX_TRADES_EXCEEDED"
  | .MAX_NOTIONAL_EXCEEDED => "MAX_NOTIONAL_EXCEEDED"
  | .MAX_LOSS_EXCEEDED => "MAX_LOSS_EXCEEDED"

/-- Modelled from the spec: `DecisionEngine.tick`.  A disabled binding or agent
skips without invoking the evaluator; HOLD/SELL/SKIP evaluator outputs are
returned verbatim; evaluator errors surface as `ERROR` without touching the
governor; a trade-proposing output consults `RiskGovernor.check`, mapping
`Allow` to `BUY`, the cutoff deny to `FORCE_EXIT`, and other denies to `SKIP`. -/
def engineTick (cfg : EngineCfg) (L : RiskLimits) (st : RiskState) (out : EvalOut)
    (now : Timestamp) : DecisionVal × RiskState :=
  if cfg.execution_mode = .DISABLED ∨ cfg.agent_enabled = false then (.SKIP "disabled", st)
  else
    match out with
    | .hold => (.SKIP "HOLD", st)
    | .sell => (.SKIP "SELL", st)
    | .skipOut r => (.SKIP r, st)
    | .errorOut m => (.ERROR m, st)
    | .propose t payload =>
      match check L st t now with
      | (.Allow, st') => (.BUY payload, st')
      | (.Deny .FORCE_EXIT, st') => (.FORCE_EXIT, st')
      | (.Deny r, st') => (.SKIP (denyReasonLabel r), st')

/-- The fixed exchange-local offset from UTC in minutes (Eastern Time,
simplified to a constant -5 hours as in the dashboard source). -/
def etOffsetMinutes : Int := -5 * 60

/-- Conversion of a caller's wall clock to exchange-local minutes: local time
plus the caller's timezone offset (UTC − local) plus the fixed exchange offset,
exactly as the dashboard computes `nowET`. -/
def callerLocalToExchange (localMinutes tzOffsetMinutes : Int) : Int :=
  localMinutes + tzOffsetMinutes + etOffsetMinutes

/-- Counterexample to C7: at 15:50 exchange-local (past the 15:45 cutoff) a
tick whose strategy signal is HOLD is returned verbatim as a SKIP — not
`FORCE_EXIT` — and `day_closed` stays false, because §4.3 only consults the
governor for trade-proposing evaluator outputs. -/
theorem engine_cutoff_hold_counterexample :
    forceExitCutoffMinute ≤ 950 ∧
    (engineTick ⟨.PAPER_LIVE, true⟩ ⟨5, 20000, 1500⟩ ⟨100, 0, 0, 0, false⟩ .hold
        ⟨100, 950⟩).1 = .SKIP "HOLD" ∧
    (engineTick ⟨.PAPER_LIVE, true⟩ ⟨5, 20000, 1500⟩ ⟨100, 0, 0, 0, false⟩ .hold
        ⟨100, 950⟩).1 ≠ .FORCE_EXIT ∧
    (engineTick ⟨.PAPER_LIVE, true⟩ ⟨5, 20000, 1500⟩ ⟨100, 0, 0, 0, false⟩ .hold
        ⟨100, 950⟩).2.day_closed = false := by
  refine ⟨by decide, rfl, by decide, rfl⟩

/-- C7 (amended). For every tick at or after the 15:45 exchange-local cutoff on
a not-yet-closed day of an enabled agent whose strategy output proposes a
trade, the decision is `FORCE_EXIT` and `day_closed` becomes true; and the
exchange-local clock is computed from the caller's wall clock with the fixed
exchange offset, so callers at the same instant in different timezones agree. -/
theorem engine_force_exit_after_cutoff (cfg : EngineCfg) (L : RiskLimits) (st : RiskState)
    (t : Trade) (p : Option Spread) (now : Timestamp)
    (hen : cfg.agent_enabled = true) (hmode : cfg.execution_mode ≠ .DISABLED)
    (hday : now.dayKey = st.dayKey) (hopen : st.day_closed = false)
    (hcut : forceExitCutoffMinute ≤ now.minute) :
    engineTick cfg L st (.propose t p) now = (.FORCE_EXIT, { st with day_closed := true }) ∧
    ∀ l1 o1 l2 o2 : Int, l1 + o1 = l2 + o2 →
      callerLocalToExchange l1 o1 = callerLocalToExchange l2 o2 := by
  constructor
  · have hcheck : check L st t now = (.Deny .FORCE_EXIT, { st with day_closed := true }) := by
      simp [check, rollIfNewDay, hday, checkAfterRoll, hopen, hcut]
    simp [engineTick, hmode, hen, hcheck]
  · intro l1 o1 l2 o2 h
    unfold callerLocalToExchange
    omega

/-- Witness for C7 (amended): a concrete enabled-agent spread proposal at 15:50
is force-exited and closes the day, and two callers in different timezones at
the same UTC instant compute the same exchange-local time. -/
theorem engine_force_exit_after_cutoff_witness :
    engineTick ⟨.PAPER_LIVE, true⟩ ⟨5, 20000, 1500⟩ ⟨100, 0, 0, 0, false⟩
        (.propose ⟨1000⟩ none) ⟨100, 950⟩ = (.FORCE_EXIT, ⟨100, 0, 0, 0, true⟩) ∧
    callerLocalToExchange 100 300 = callerLocalToExchange 250 150 := by
  have h := engine_force_exit_after_cutoff ⟨.PAPER_LIVE, true⟩ ⟨5, 20000, 1500⟩
    ⟨100, 0, 0, 0, false⟩ ⟨1000⟩ none ⟨100, 950⟩ rfl (by decide) rfl rfl (by decide)
  exact ⟨h.1, h.2 100 300 250 150 (by decide)⟩

/-! ## ReplayRunner (modelled from the spec, §4.6) -/

/-- Modelled from the spec: one timeline entry of a replay run. -/
structure TimelineEntry where
  time : Nat
  decision : DecisionVal
  deriving DecidableEq, Repr

/-- Modelled from the spec: the synthetic tick times of a replay — start time,
then fixed steps of `interval` minutes, up to and including the end time when
it lands exactly on a step. -/
def replayTicks (startM endM interval : Nat) : List Nat :=
  if interval = 0 then [startM]
  else (List.range ((endM - startM) / interval + 1)).map (fun i => startM + i * interval)

/-- Modelled from the spec: the persisted live state of an agent — its current
`RiskState` and the broker's Position/Account state. -/
structure LiveState where
  risk : RiskState
  broker : BrokerState
  deriving DecidableEq, Repr

/-- Modelled from the spec: `ReplayRunner.run` in plan-only mode.  The governor
counters used are a disposable copy seeded from the live day's state; the
engine is driven over the synthetic ticks with the snapshot-derived evaluator
output `sig`; decisions are recorded in the timeline and never forwarded to
the broker; the live state is returned untouched. -/
def runReplay (cfg : EngineCfg) (L : RiskLimits) (sig : Timestamp → EvalOut)
    (live : LiveState) (day startM endM interval : Nat) :
    List TimelineEntry × LiveState :=
  let seed := live.risk
  let step := fun (acc : List TimelineEntry × RiskState) (m : Nat) =>
    let now : Timestamp := ⟨day, m⟩
    let d := engineTick cfg L acc.2 (sig now) now
    (acc.1 ++ [⟨m, d.1⟩], d.2)
  (((replayTicks startM endM interval).foldl step ([], seed)).1, live)

/-- C6. A replay never mutates the persisted live state: the live `RiskState`,
Position and Account are identical before and after, decisions stay in the
timeline (the broker state is untouched), and running the same replay twice
from the resulting live state reproduces the run exactly. -/
theorem replay_no_live_mutation (cfg : EngineCfg) (L : RiskLimits)
    (sig : Timestamp → EvalOut) (live : LiveState) (day startM endM interval : Nat) :
    (runReplay cfg L sig live day startM endM interval).2 = live ∧
    (runReplay cfg L sig live day startM endM interval).2.risk = live.risk ∧
    (runReplay cfg L sig live day startM endM interval).2.broker = live.broker ∧
    runReplay cfg L sig (runReplay cfg L sig live day startM endM interval).2
        day startM endM interval =
      runReplay cfg L sig live day startM endM interval :=
  ⟨rfl, rfl, rfl, rfl⟩

/-! ## BacktestRunner (modelled from the spec, §4.2 and §4.5) -/

/-- Modelled from the spec: the runtime environment a runner could observe —
wall clock and a randomness seed; §4.5 requires the backtest to depend on
neither. -/
structure RunnerEnv where
  wallClockMs : Nat
  randomSeed : Nat
  deriving DecidableEq, Repr

/-- Modelled from the spec: the declared inputs of a portfolio backtest —
ticker set, seed bar data (per ticker, chronological `(dateKey, close)`),
date range, SMA parameters and the portfolio/cost parameters. -/
structure BacktestInputs where
  tickers : List String
  bars : List (String × List (Nat × Rat))
  startDate : Nat
  endDate : Nat
  fast : Nat
  slow : Nat
  initial_cash : Rat
  max_positions : Nat
  risk_per_trade : Rat
  commission_per_trade : Rat
  slippage_bps : Rat
  deriving DecidableEq, Repr

/-- Modelled from the spec: strategy signal values. -/
inductive Sig where
  | BUY
  | SELL
  | HOLD
  deriving DecidableEq, Repr

/-- Simple moving average of the trailing `n` closes; `none` when the history
is shorter than `n`. -/
def smaOf (closes : List Rat) (n : Nat) : Option Rat :=
  if n = 0 ∨ closes.length < n then none
  else some (((closes.drop (closes.length - n)).foldl (· + ·) 0) / (n : Rat))

/-- Modelled from the spec: SMA crossover — BUY when the fast average crosses
above the slow one between the previous and the current bar, SELL on the
opposite cross, HOLD otherwise or on insufficient history. -/
def smaSignal (fast slow : Nat) (closes : List Rat) : Sig :=
  match smaOf closes fast, smaOf closes slow,
      smaOf closes.dropLast fast, smaOf closes.dropLast slow with
  | some f, some s, some fp, some sp =>
    if fp ≤ sp ∧ s < f then .BUY
    else if sp ≤ fp ∧ f < s then .SELL
    else .HOLD
  | _, _, _, _ => .HOLD

/-- The stored bars of a ticker restricted to the requested date range. -/
def barsFor (inp : BacktestInputs) (tk : String) : List (Nat × Rat) :=
  ((inp.bars.lookup tk).getD []).filter
    (fun b => decide (inp.startDate ≤ b.1 ∧ b.1 ≤ inp.endDate))

/-- The closes of a ticker up to and including a date. -/
def closesUpTo (inp : BacktestInputs) (tk : String) (d : Nat) : List Rat :=
  ((barsFor inp tk).filter (fun b => decide (b.1 ≤ d))).map (·.2)

/-- The close of a ticker at a date, when a bar exists. -/
def priceAt (inp : BacktestInputs) (tk : String) (d : Nat) : Option Rat :=
  (barsFor inp tk).lookup d

/-- Insertion into a sorted list of dates. -/
def insertSortedNat (d : Nat) : List Nat → List Nat
  | [] => [d]
  | x :: xs => if d ≤ x then d :: x :: xs else x :: insertSortedNat d xs

/-- Modelled from the spec: bars of all tickers merged by date — the sorted,
deduplicated union of the in-range dates. -/
def mergedDates (inp : BacktestInputs) : List Nat :=
  ((inp.tickers.foldl (fun acc tk => acc ++ (barsFor inp tk).map (·.1)) []).foldr
    insertSortedNat []).dedup

/-- An open backtest position: whole-unit quantity and the last observed close
(used to mark the equity curve). -/
structure BTPosition where
  qty : Nat
  lastPrice : Rat
  deriving DecidableEq, Repr

/-- One entry of the backtest trade log. -/
structure BTTrade where
  date : Nat
  ticker : String
  side : Side
  qty : Nat
  price : Rat
  deriving DecidableEq, Repr

/-- The running portfolio state of a backtest. -/
structure BTState where
  cash : Rat
  openPos : List (String × BTPosition)
  equityCurve : List (Nat × Rat)
  tradeLog : List BTTrade
  deriving DecidableEq, Repr

/-- Mark-to-market value of the open positions. -/
def posValue (ps : List (String × BTPosition)) : Rat :=
  ps.foldl (fun a kv => a + (kv.2.qty : Rat) * kv.2.lastPrice) 0

/-- Replaces the backtest position stored for a ticker. -/
def setBTPos (ps : List (String × BTPosition)) (tk : String) (p : BTPosition) :
    List (String × BTPosition) :=
  (tk, p) :: ps.filter (fun kv => kv.1 ≠ tk)

/-- Modelled from the spec: one merged date of the portfolio backtest — exits
are evaluated first for tickers with an open position, then entries for
tickers without one while fewer than `max_positions` are open, sized as
`risk_per_trade * equity / entry_price` rounded down to a whole unit and
skipped at size zero, with the PaperBroker slippage/commission model; one
equity point is appended per date. -/
def btDateStep (inp : BacktestInputs) (st : BTState) (d : Nat) : BTState :=
  let afterExits := inp.tickers.foldl (fun s tk =>
    match s.openPos.lookup tk, priceAt inp tk d with
    | some p, some close =>
      match smaSignal inp.fast inp.slow (closesUpTo inp tk d) with
      | .SELL =>
        let price := close * (1 - inp.slippage_bps / 10000)
        { s with
          cash := s.cash + (p.qty : Rat) * price - inp.commission_per_trade
          openPos := s.openPos.filter (fun kv => kv.1 ≠ tk)
          tradeLog := s.tradeLog ++ [⟨d, tk, .SELL, p.qty, price⟩] }
      | _ => { s with openPos := setBTPos s.openPos tk { p with lastPrice := close } }
    | _, _ => s) st
  let afterEntries := inp.tickers.foldl (fun s tk =>
    match s.openPos.lookup tk, priceAt inp tk d with
    | none, some close =>
      if s.openPos.length < inp.max_positions then
        match smaSignal inp.fast inp.slow (closesUpTo inp tk d) with
        | .BUY =>
          let entryPrice := close * (1 + inp.slippage_bps / 10000)
          let equity := s.cash + posValue s.openPos
          let size : Nat := (inp.risk_per_trade * equity / entryPrice).floor.toNat
          if size = 0 then s
          else
            { s with
              cash := s.cash - (size : Rat) * entryPrice - inp.commission_per_trade
              openPos := (tk, ⟨size, close⟩) :: s.openPos
              tradeLog := s.tradeLog ++ [⟨d, tk, .BUY, size, entryPrice⟩] }
        | _ => s
      else s
    | _, _ => s) afterExits
  { afterEntries with
    equityCurve :=
      afterEntries.equityCurve ++ [(d, afterEntries.cash + posValue afterEntries.openPos)] }

/-- Modelled from the spec: `BacktestRunner.run` in portfolio mode, producing
the equity curve (one point per merged date) and the ordered trade log.  The
runtime environment is passed in but — per §4.5 — never consulted. -/
def runBacktest (env : RunnerEnv) (inp : BacktestInputs) :
    List (Nat × Rat) × List BTTrade :=
  let final := (mergedDates inp).foldl (btDateStep inp)
    { cash := inp.initial_cash, openPos := [], equityCurve := [], tradeLog := [] }
  (final.equityCurve, final.tradeLog)

/-- C8. The backtest is deterministic: its equity curve and trade log are a
function of the declared inputs alone — two runs under arbitrary different
wall clocks and random seeds produce identical outputs. -/
theorem backtest_deterministic (env1 env2 : RunnerEnv) (inp : BacktestInputs) :
    runBacktest env1 inp = runBacktest env2 inp := rfl

/-! ## API proxy handler (embedded from `frontend/pages/api/proxy/[...path].js`) -/

mutual
/-- A parsed JSON value, as Next.js presents the request body in `req.body`. -/
inductive JsonVal where
  | jnull
  | jbool (b : Bool)
  | jnum (n : Int)
  | jstr (s : String)
  | jobj (fields : JsonFields)
  | jarr (elems : JsonElems)
  deriving DecidableEq, Repr

/-- The field list of a JSON object. -/
inductive JsonFields where
  | fnil
  | fcons (key : String) (val : JsonVal) (rest : JsonFields)
  deriving DecidableEq, Repr

/-- The element list of a JSON array. -/
inductive JsonElems where
  | enil
  | econs (val : JsonVal) (rest : JsonElems)
  deriving DecidableEq, Repr
end

/-- JavaScript truthiness of a JSON value: `null`, `false`, `0` and the empty
string are falsy; objects and arrays (even empty) are truthy. -/
def jsTruthy : JsonVal → Bool
  | .jnull => false
  | .jbool b => b
  | .jnum n => n != 0
  | .jstr s => s != ""
  | .jobj _ => true
  | .jarr _ => true

mutual
/-- `JSON.stringify` on the modelled JSON values. -/
def stringify : JsonVal → String
  | .jnull => "null"
  | .jbool true => "true"
  | .jbool false => "false"
  | .jnum n => toString n
  | .jstr s => "\"" ++ s ++ "\""
  | .jobj fs => "\x7b" ++ stringifyFields fs ++ "\x7d"
  | .jarr es => "[" ++ stringifyElems es ++ "]"

/-- `JSON.stringify` of object fields, comma-separated. -/
def stringifyFields : JsonFields → String
  | .fnil => ""
  | .fcons k v .fnil => "\"" ++ k ++ "\":" ++ stringify v
  | .fcons k v rest => "\"" ++ k ++ "\":" ++ stringify v ++ "," ++ stringifyFields rest

/-- `JSON.stringify` of array elements, comma-separated. -/
def stringifyElems : JsonElems → String
  | .enil => ""
  | .econs v .enil => stringify v
  | .econs v rest => stringify v ++ "," ++ stringifyElems rest
end

/-- The environment variables the handler reads (`undefined` is `none`). -/
structure ProxyEnv where
  deltastackApiKey : Option String
  backendBaseUrl : Option String
  deriving DecidableEq, Repr

/-- The incoming request as the handler sees it: HTTP method, the optional
catch-all `req.query.path` segments, and the parsed `req.body`. -/
structure ProxyReq where
  method : String
  pathSegs : Option (List String)
  body : Option JsonVal
  deriving DecidableEq, Repr

/-- The request the handler sends to the backend via `fetch`. -/
structure ForwardedRequest where
  url : String
  method : String
  xApiKey : String
  contentType : String
  body : Option String
  deriving DecidableEq, Repr

/-- The handler's outcome before the backend answers: either an immediate 500
response (the backend is never contacted) or a forwarded request. -/
inductive ProxyOutcome where
  | reject500 (error : String)
  | forward (f : ForwardedRequest)
  deriving DecidableEq, Repr

/-- The body attached to the forwarded `fetch`, embedded from the guard
`req.method !== 'GET' && req.method !== 'HEAD' && req.body` of the source:
only non-GET, non-HEAD requests with a truthy parsed body are serialized. -/
def forwardBody (method : String) (b : Option JsonVal) : Option String :=
  if method = "GET" ∨ method = "HEAD" then none
  else match b with
    | some v => if jsTruthy v then some (stringify v) else none
    | none => none

/-- The proxy handler, embedded from the JavaScript source: resolves the
backend base URL with its default, returns a 500 error when the API key
environment variable is falsy (unset or empty), and otherwise forwards the
request with the `X-API-Key` header, a JSON content type, and the body given
by `forwardBody`. -/
def handler (env : ProxyEnv) (req : ProxyReq) : ProxyOutcome :=
  let apiBase := match env.backendBaseUrl with
    | some b => if b != "" then b else "http://127.0.0.1:8000"
    | none => "http://127.0.0.1:8000"
  match env.deltastackApiKey with
  | none => .reject500 "DELTASTACK_API_KEY not configured on server"
  | some k =>
    if k = "" then .reject500 "DELTASTACK_API_KEY not configured on server"
    else
      let path := match req.pathSegs with
        | some segs => String.intercalate "/" segs
        | none => ""
      let url := apiBase ++ "/" ++ path
      .forward { url := url, method := req.method, xApiKey := k,
                 contentType := "application/json",
                 body := forwardBody req.method req.body }

/-- C9. The handler forwards a request only when the `DELTASTACK_API_KEY`
environment variable is set, and then the forwarded request carries exactly
that key in its `X-API-Key` header; when the variable is unset the handler
answers 500 with an error body and no request is forwarded to the backend. -/
theorem proxy_key_gate (env : ProxyEnv) (req : ProxyReq) :
    (env.deltastackApiKey = none →
      handler env req = .reject500 "DELTASTACK_API_KEY not configured on server") ∧
    (∀ f, handler env req = .forward f →
      env.deltastackApiKey = some f.xApiKey ∧ f.xApiKey ≠ "") := by
  constructor
  · intro h
    simp [handler, h]
  · intro f hf
    cases henv : env.deltastackApiKey with
    | none => simp [handler, henv] at hf
    | some k =>
      by_cases hk : k = ""
      · simp [handler, henv, hk] at hf
      · simp only [handler, henv, if_neg hk, ProxyOutcome.forward.injEq] at hf
        subst hf
        exact ⟨rfl, hk⟩

/-- Witness for C9: with the key variable unset, a concrete GET is answered
with the 500 error outcome, not forwarded. -/
theorem proxy_key_gate_witness :
    handler ⟨none, none⟩ ⟨"GET", some ["health"], none⟩ =
      .reject500 "DELTASTACK_API_KEY not configured on server" :=
  (proxy_key_gate ⟨none, none⟩ ⟨"GET", some ["health"], none⟩).1 rfl

/-- Counterexample to C10: a POST whose parsed JSON body is `false` — a
present, non-empty incoming body — is forwarded with no body at all, because
the handler's guard tests JavaScript truthiness of `req.body`, not presence. -/
theorem proxy_body_counterexample :
    handler ⟨some "k", none⟩ ⟨"POST", some ["trade", "order"], some (.jbool false)⟩ =
      .forward ⟨"http://127.0.0.1:8000/trade/order", "POST", "k", "application/json", none⟩ ∧
    (some (JsonVal.jbool false)) ≠ none := by
  exact ⟨by decide, by decide⟩

lemma forwardBody_get_head (m : String) (b : Option JsonVal)
    (hm : m = "GET" ∨ m = "HEAD") : forwardBody m b = none := by
  simp [forwardBody, hm]

lemma forwardBody_eq_some (m : String) (b : Option JsonVal) (s : String)
    (hm : ¬ (m = "GET" ∨ m = "HEAD")) :
    (forwardBody m b = some s ↔
      ∃ v, b = some v ∧ jsTruthy v = true ∧ s = stringify v) := by
  unfold forwardBody
  rw [if_neg hm]
  cases b with
  | none =>
    constructor
    · intro hs; exact Option.noConfusion hs
    · rintro ⟨v, hv, _, _⟩; exact Option.noConfusion hv
  | some v =>
    have hred : (match some v with
        | some w => if jsTruthy w = true then some (stringify w) else none
        | none => none) = (if jsTruthy v = true then some (stringify v) else none) := rfl
    rw [hred]
    by_cases ht : jsTruthy v = true
    · rw [if_pos ht]
      constructor
      · intro hs
        injection hs with h
        exact ⟨v, rfl, ht, h.symm⟩
      · rintro ⟨w, hw, _, hsw⟩
        injection hw with hvw
        rw [hsw, hvw]
    · rw [if_neg ht]
      constructor
      · intro hs; exact Option.noConfusion hs
      · rintro ⟨w, hw, htw, _⟩
        injection hw with hvw
        rw [hvw] at ht
        exact absurd htw ht

/-- C10 (amended). Every forwarded GET or HEAD request carries no body; for
every other method the forwarded body is exactly the JSON-serialized parsed
request body when that body is present and truthy in the JavaScript sense, and
absent otherwise (absent, `null`, `false`, `0` and empty-string bodies are not
forwarded). -/
theorem proxy_body_forwarding (env : ProxyEnv) (req : ProxyReq) (f : ForwardedRequest)
    (hf : handler env req = .forward f) :
    ((req.method = "GET" ∨ req.method = "HEAD") → f.body = none) ∧
    (¬ (req.method = "GET" ∨ req.method = "HEAD") →
      ∀ s, f.body = some s ↔
        ∃ v, req.body = some v ∧ jsTruthy v = true ∧ s = stringify v) := by
  cases henv : env.deltastackApiKey with
  | none => simp [handler, henv] at hf
  | some k =>
    by_cases hk : k = ""
    · simp [handler, henv, hk] at hf
    · simp only [handler, henv, if_neg hk, ProxyOutcome.forward.injEq] at hf
      subst hf
      exact ⟨fun hm => forwardBody_get_head req.method req.body hm,
             fun hm s => forwardBody_eq_some req.method req.body s hm⟩

/-- Witness for C10 (amended): a concrete forwarded GET carries no body. -/
theorem proxy_body_forwarding_witness :
    (ForwardedRequest.mk "http://127.0.0.1:8000/health" "GET" "k" "application/json"
      none).body = none :=
  (proxy_body_forwarding ⟨some "k", none⟩ ⟨"GET", some ["health"], none⟩
    ⟨"http://127.0.0.1:8000/health", "GET", "k", "application/json", none⟩
    (by decide)).1 (Or.inl rfl)

end DeltaStack
